import Mathlib

/-!
Shallow embedding of the NannyML performance-estimation core: the
confidence-based estimator for binary classification
(`_BinaryClassificationCBPE` in
`nannyml/performance_estimation/confidence_based/_cbpe_binary_classification.py`),
the direct loss estimator for regression (`DLE` in
`nannyml/performance_estimation/direct_loss_estimation/dle.py`), and the
result-table layout builder `_create_multilevel_index` (dle.py).

Numeric values are modelled as rationals; dataframes as ordered association
lists from column names to value columns; the external collaborators
(chunker, calibration check, calibrator, metrics, imputer and encoders) as
function-valued configuration fields, mirroring the spec's
external-interface boundary.  Calls to the external calibration
collaborator are logged as events so that invocation counts can be stated.
-/

namespace NannyML

/-- A tabular dataset: ordered columns, each a name paired with its values. -/
structure DataFrame where
  cols : List (String × List ℚ)
deriving DecidableEq

/-- Look a column up by name (first match); empty when absent. -/
def getColList (n : String) : List (String × List ℚ) → List ℚ
  | [] => []
  | c :: t => if c.1 = n then c.2 else getColList n t

/-- Column assignment: replace the column in place when the name exists,
append it at the end otherwise, as a pandas column assignment does. -/
def setColList (n : String) (v : List ℚ) : List (String × List ℚ) → List (String × List ℚ)
  | [] => [(n, v)]
  | c :: t => if c.1 = n then (c.1, v) :: t else c :: setColList n v t

def DataFrame.getCol (df : DataFrame) (n : String) : List ℚ :=
  getColList n df.cols

def DataFrame.setCol (df : DataFrame) (n : String) (v : List ℚ) : DataFrame :=
  ⟨setColList n v df.cols⟩

def DataFrame.columnNames (df : DataFrame) : List String :=
  df.cols.map Prod.fst

/-- pandas `DataFrame.empty`: the frame holds no data. -/
def DataFrame.isEmpty (df : DataFrame) : Bool :=
  df.cols.all (fun c => c.2.isEmpty)

/-- Errors surfaced synchronously to the caller. -/
inductive NmlError where
  | invalidArguments (msg : String)
  | missingColumns (missing : List String)
deriving DecidableEq

/-- The message of the empty-dataset `InvalidArgumentsException`. -/
def rowsErrorMsg : String := "data contains no rows. Please provide a valid data set."

/-- The required columns absent from the present ones, in required order. -/
def missingOf (required present : List String) : List String :=
  required.filter (fun c => ¬ c ∈ present)

/-- Modelled from the spec: `_list_missing` (imported from `nannyml.base`,
which is outside the covered sources) validates that every required column
is present and otherwise fails with an error enumerating the missing column
names. -/
def listMissing (required present : List String) : Except NmlError Unit :=
  if missingOf required present = [] then .ok ()
  else .error (.missingColumns (missingOf required present))

/-- Observable calls made to the external calibration collaborator. -/
inductive Event where
  | needsCalibrationCheck
  | calibrateCall
deriving DecidableEq

/-- A chunk as produced by the external chunker: identity metadata plus a
view of its row data. -/
structure Chunk where
  key : String
  chunk_index : Nat
  start_index : Nat
  end_index : Nat
  start_datetime : Option Nat
  end_datetime : Option Nat
  data : DataFrame

/-- Modelled from the spec: `SAMPLING_ERROR_RANGE` (imported from
`nannyml.sampling_error`, which is outside the covered sources) is the
factor encoding the 3-sigma normal-approximation confidence band. -/
def SAMPLING_ERROR_RANGE : ℚ := 3

/-- `self.confidence_upper_bound = 1` from `_BinaryClassificationCBPE.__init__`. -/
def confidence_upper_bound : ℚ := 1

/-- `self.confidence_lower_bound = 0` from `_BinaryClassificationCBPE.__init__`. -/
def confidence_lower_bound : ℚ := 0

/-- A fitted classification metric: its estimation, sampling-error and
realized-performance procedures are external computations on chunk data;
its alerting thresholds were computed during fit. -/
structure ClfMetric where
  column_name : String
  estimate : DataFrame → ℚ
  sampling_error : DataFrame → ℚ
  realized_performance : DataFrame → ℚ
  upper_threshold : ℚ
  lower_threshold : ℚ

/-- The eight per-metric values `_BinaryClassificationCBPE._estimate_chunk`
stores for one chunk. -/
structure ClfMetricRow where
  sampling_error : ℚ
  realized : ℚ
  value : ℚ
  upper_confidence_boundary : ℚ
  lower_confidence_boundary : ℚ
  upper_threshold : ℚ
  lower_threshold : ℚ
  alert : Bool
deriving DecidableEq

/-- The per-metric body of `_BinaryClassificationCBPE._estimate_chunk`,
as a function of the metric outputs on the chunk data. -/
def clfMetricRowOf (est se r ut lt : ℚ) : ClfMetricRow :=
  { sampling_error := se
    realized := r
    value := est
    upper_confidence_boundary :=
      min confidence_upper_bound (est + SAMPLING_ERROR_RANGE * se)
    lower_confidence_boundary :=
      max confidence_lower_bound (est - SAMPLING_ERROR_RANGE * se)
    upper_threshold := ut
    lower_threshold := lt
    alert := decide (est > ut) || decide (est < lt) }

/-- One iteration of the metric loop in
`_BinaryClassificationCBPE._estimate_chunk`. -/
def clfEstimateChunkMetric (m : ClfMetric) (data : DataFrame) : ClfMetricRow :=
  clfMetricRowOf (m.estimate data) (m.sampling_error data)
    (m.realized_performance data) m.upper_threshold m.lower_threshold

/-- One row of the classification Result table: the seven chunk columns
plus one group of values per configured metric, in metric order. -/
structure ClfResultRow where
  key : String
  chunk_index : Nat
  start_index : Nat
  end_index : Nat
  start_date : Option Nat
  end_date : Option Nat
  period : String
  metrics : List ClfMetricRow
deriving DecidableEq

/-- Configuration and fitted external collaborators of a
`_BinaryClassificationCBPE` instance. -/
structure CBPEConfig where
  y_pred : String
  y_pred_proba : String
  y_true : String
  metrics : List ClfMetric
  split : DataFrame → List Chunk
  needsCalib : List ℚ → List ℚ → Bool
  calibrate : List ℚ → List ℚ

/-- The mutable state of a `_BinaryClassificationCBPE` instance: the
calibration flag and the accumulated Result (None until first estimate). -/
structure CBPEState where
  needs_calibration : Bool
  result : Option (List ClfResultRow)
deriving DecidableEq

/-- The derived name of the preserved uncalibrated-score column. -/
def uncalName (cfg : CBPEConfig) : String :=
  "uncalibrated_" ++ cfg.y_pred_proba

/-- The uncalibrated-score column assignment both `_fit` and `_estimate`
perform on their input frame. -/
def cbpeUncal (cfg : CBPEConfig) (data : DataFrame) : DataFrame :=
  data.setCol (uncalName cfg) (data.getCol cfg.y_pred_proba)

/-- The input-frame mutation `_estimate` performs before chunking: derive
the uncalibrated-score column and, when the fitted flag requires it,
overwrite the score column with calibrated scores. -/
def cbpePrepared (cfg : CBPEConfig) (flag : Bool) (data : DataFrame) : DataFrame :=
  if flag then
    (cbpeUncal cfg data).setCol cfg.y_pred_proba
      (cfg.calibrate ((cbpeUncal cfg data).getCol cfg.y_pred_proba))
  else cbpeUncal cfg data

/-- The row `_estimate` assembles for one chunk (tagged analysis; `_fit`
rewrites the tag afterwards). -/
def cbpeChunkRow (cfg : CBPEConfig) (c : Chunk) : ClfResultRow :=
  { key := c.key
    chunk_index := c.chunk_index
    start_index := c.start_index
    end_index := c.end_index
    start_date := c.start_datetime
    end_date := c.end_datetime
    period := "analysis"
    metrics := cfg.metrics.map (fun m => clfEstimateChunkMetric m c.data) }

/-- The post-validation body of `_BinaryClassificationCBPE._estimate`:
mutate the input frame, chunk it, estimate every chunk, and append the new
rows to the accumulated Result (`self.result is None` means no previous
rows, so both source branches are one append to the possibly-empty previous
row list).  Also returns the mutated input frame and the calibration events
emitted. -/
def cbpeEstimateAction (cfg : CBPEConfig) (s : CBPEState) (data : DataFrame) :
    CBPEState × DataFrame × List Event :=
  ({ needs_calibration := s.needs_calibration
     result := some (s.result.getD [] ++
       (cfg.split (cbpePrepared cfg s.needs_calibration data)).map (cbpeChunkRow cfg)) },
   cbpePrepared cfg s.needs_calibration data,
   if s.needs_calibration then [Event.calibrateCall] else [])

/-- `_BinaryClassificationCBPE._estimate`: eager validation (empty data,
then required columns), then the estimation body.  An error is raised
before any mutation of the estimator's state. -/
def cbpeEstimateRaw (cfg : CBPEConfig) (s : CBPEState) (data : DataFrame) :
    Except NmlError (CBPEState × DataFrame × List Event) :=
  if data.isEmpty then .error (.invalidArguments rowsErrorMsg)
  else
    match listMissing [cfg.y_pred_proba, cfg.y_pred] data.columnNames with
    | .error e => .error e
    | .ok _ => .ok (cbpeEstimateAction cfg s data)

/-- The reference frame after `_fit` adds the uncalibrated-score column
(line 73 of the source). -/
def cbpeRef1 (cfg : CBPEConfig) (ref : DataFrame) : DataFrame :=
  cbpeUncal cfg ref

/-- The calibration-need flag `_fit` computes once from the reference
labels and (pre-calibration) scores via the external check. -/
def cbpeFlag (cfg : CBPEConfig) (ref : DataFrame) : Bool :=
  cfg.needsCalib ((cbpeRef1 cfg ref).getCol cfg.y_true)
    ((cbpeRef1 cfg ref).getCol cfg.y_pred_proba)

/-- `self.result.data[('chunk', 'period')] = 'reference'`: rewrite a row's
period tag. -/
def setPeriodReference (r : ClfResultRow) : ClfResultRow :=
  { r with period := "reference" }

/-- `_BinaryClassificationCBPE._fit`: eager validation, derive the
uncalibrated-score column, fit the metrics (external), compute the
calibration-need flag once, fit the calibrator when needed (external), run
`_estimate` on the same reference frame to seed the Result, and finally tag
every row of the Result with period reference. -/
def cbpeFitRaw (cfg : CBPEConfig) (s : CBPEState) (ref : DataFrame) :
    Except NmlError (CBPEState × DataFrame × List Event) :=
  if ref.isEmpty then .error (.invalidArguments rowsErrorMsg)
  else
    match listMissing [cfg.y_true, cfg.y_pred_proba, cfg.y_pred] ref.columnNames with
    | .error e => .error e
    | .ok _ =>
      match cbpeEstimateRaw cfg
          { needs_calibration := cbpeFlag cfg ref, result := s.result }
          (cbpeRef1 cfg ref) with
      | .error e => .error e
      | .ok (s2, ref2, evs) =>
        .ok ({ s2 with result := s2.result.map (List.map setPeriodReference) },
          ref2, Event.needsCalibrationCheck :: evs)

/-- The estimator state after an `_estimate` call: the returned state on
success; on an exception the object is left exactly as it was before the
call (validation precedes every state write in the source). -/
def cbpeEstimateState (cfg : CBPEConfig) (s : CBPEState) (data : DataFrame) : CBPEState :=
  match cbpeEstimateRaw cfg s data with
  | .ok (s', _, _) => s'
  | .error _ => s

/-- The estimator state after a `_fit` call, on success or exception. -/
def cbpeFitState (cfg : CBPEConfig) (s : CBPEState) (ref : DataFrame) : CBPEState :=
  match cbpeFitRaw cfg s ref with
  | .ok (s', _, _) => s'
  | .error _ => s

/-- A fitted regression (direct loss estimation) metric: estimation via the
fitted surrogate model, sampling error and realized performance are
external computations; the metric carries optional value limits and
optional alerting thresholds. -/
structure DleMetric where
  column_name : String
  estimate : DataFrame → ℚ
  sampling_error : DataFrame → ℚ
  realized_performance : DataFrame → ℚ
  upper_value_limit : Option ℚ
  lower_value_limit : Option ℚ
  upper_threshold : Option ℚ
  lower_threshold : Option ℚ

/-- The eight per-metric values `DLE._estimate_chunk` stores for one chunk. -/
structure DleMetricRow where
  sampling_error : ℚ
  realized : ℚ
  value : ℚ
  upper_confidence_boundary : ℚ
  lower_confidence_boundary : ℚ
  upper_threshold : Option ℚ
  lower_threshold : Option ℚ
  alert : Bool
deriving DecidableEq

/-- The per-metric body of `DLE._estimate_chunk`: `estimate ± 3·sampling
error` clipped to a value limit only when that limit is not None, and the
alert conditional written with Python truthiness tests
(`... if metric.upper_threshold else False`), under which both a missing
threshold and a zero threshold disable that side. -/
def dleMetricRowOf (est se r : ℚ) (uvl lvl ut lt : Option ℚ) : DleMetricRow :=
  { sampling_error := se
    realized := r
    value := est
    upper_confidence_boundary :=
      match uvl with
      | some u => min u (est + 3 * se)
      | none => est + 3 * se
    lower_confidence_boundary :=
      match lvl with
      | some l => max l (est - 3 * se)
      | none => est - 3 * se
    upper_threshold := ut
    lower_threshold := lt
    alert :=
      (match ut with
       | some u => if u = 0 then false else decide (est > u)
       | none => false) ||
      (match lt with
       | some l => if l = 0 then false else decide (est < l)
       | none => false) }

/-- One iteration of the metric loop in `DLE._estimate_chunk`. -/
def dleEstimateChunkMetric (m : DleMetric) (data : DataFrame) : DleMetricRow :=
  dleMetricRowOf (m.estimate data) (m.sampling_error data)
    (m.realized_performance data) m.upper_value_limit m.lower_value_limit
    m.upper_threshold m.lower_threshold

/-- One row of the regression Result table. -/
structure DleResultRow where
  key : String
  chunk_index : Nat
  start_index : Nat
  end_index : Nat
  start_date : Option Nat
  end_date : Option Nat
  period : String
  metrics : List DleMetricRow
deriving DecidableEq

/-- Configuration and fitted external collaborators of a `DLE` instance.
`categoricalOf` is modelled from the spec: `_split_features_by_type` (from
`nannyml.base`, outside the covered sources) selects, by column content,
the categorical subset of the configured feature columns.  The fitted
imputer and per-column encoders are the external preprocessing capabilities
(fit-time and transform-only variants). -/
structure DLEConfig where
  feature_column_names : List String
  y_pred : String
  y_true : String
  metrics : List DleMetric
  split : DataFrame → List Chunk
  categoricalOf : DataFrame → List String
  imputerFitTransform : List ℚ → List ℚ
  imputerTransform : List ℚ → List ℚ
  encoderFitTransform : String → List ℚ → List ℚ
  encoderTransform : String → List ℚ → List ℚ

/-- The mutable state of a `DLE` instance: the accumulated Result. -/
structure DLEState where
  result : Option (List DleResultRow)
deriving DecidableEq

/-- The categorical-column overwrite: impute every categorical feature
column, then replace it with its integer encoding (the imputer works
columnwise, so imputing the sub-frame and then encoding each column equals
this per-column composition).  Skipped when there are no categorical
columns. -/
def dleTransformWith (catsOf : DataFrame → List String)
    (imp : List ℚ → List ℚ) (enc : String → List ℚ → List ℚ)
    (data : DataFrame) : DataFrame :=
  if (catsOf data).isEmpty then data
  else (catsOf data).foldl (fun d c => d.setCol c (enc c (imp (d.getCol c)))) data

/-- The transform-only categorical overwrite `DLE._estimate` performs. -/
def dleTransformEstimate (cfg : DLEConfig) (data : DataFrame) : DataFrame :=
  dleTransformWith cfg.categoricalOf cfg.imputerTransform cfg.encoderTransform data

/-- The fit-and-transform categorical overwrite `DLE._fit` performs. -/
def dleTransformFit (cfg : DLEConfig) (data : DataFrame) : DataFrame :=
  dleTransformWith cfg.categoricalOf cfg.imputerFitTransform cfg.encoderFitTransform data

/-- The row `DLE._estimate` assembles for one chunk. -/
def dleChunkRow (cfg : DLEConfig) (c : Chunk) : DleResultRow :=
  { key := c.key
    chunk_index := c.chunk_index
    start_index := c.start_index
    end_index := c.end_index
    start_date := c.start_datetime
    end_date := c.end_datetime
    period := "analysis"
    metrics := cfg.metrics.map (fun m => dleEstimateChunkMetric m c.data) }

/-- The post-validation body of `DLE._estimate`: overwrite the categorical
feature columns, chunk, estimate every chunk, append to the accumulated
Result; also returns the mutated input frame. -/
def dleEstimateAction (cfg : DLEConfig) (s : DLEState) (data : DataFrame) :
    DLEState × DataFrame :=
  ({ result := some (s.result.getD [] ++
      (cfg.split (dleTransformEstimate cfg data)).map (dleChunkRow cfg)) },
   dleTransformEstimate cfg data)

/-- `DLE._estimate`: eager validation, then the estimation body. -/
def dleEstimateRaw (cfg : DLEConfig) (s : DLEState) (data : DataFrame) :
    Except NmlError (DLEState × DataFrame) :=
  if data.isEmpty then .error (.invalidArguments rowsErrorMsg)
  else
    match listMissing [cfg.y_pred] data.columnNames with
    | .error e => .error e
    | .ok _ => .ok (dleEstimateAction cfg s data)

/-- Rewrite a regression row's period tag to reference. -/
def dleSetPeriodReference (r : DleResultRow) : DleResultRow :=
  { r with period := "reference" }

/-- `DLE._fit`: eager validation, fit-and-transform the categorical feature
columns, fit the metrics (external), run `_estimate` on the transformed
reference frame to seed the Result, and tag every Result row with period
reference. -/
def dleFitRaw (cfg : DLEConfig) (s : DLEState) (ref : DataFrame) :
    Except NmlError (DLEState × DataFrame) :=
  if ref.isEmpty then .error (.invalidArguments rowsErrorMsg)
  else
    match listMissing [cfg.y_true, cfg.y_pred] ref.columnNames with
    | .error e => .error e
    | .ok _ =>
      match dleEstimateRaw cfg s (dleTransformFit cfg ref) with
      | .error e => .error e
      | .ok (s2, ref2) =>
        .ok ({ result := s2.result.map (List.map dleSetPeriodReference) }, ref2)

/-- The estimator state after a `DLE._estimate` call, on success or
exception. -/
def dleEstimateState (cfg : DLEConfig) (s : DLEState) (data : DataFrame) : DLEState :=
  match dleEstimateRaw cfg s data with
  | .ok (s', _) => s'
  | .error _ => s

/-- The estimator state after a `DLE._fit` call, on success or exception. -/
def dleFitState (cfg : DLEConfig) (s : DLEState) (ref : DataFrame) : DLEState :=
  match dleFitRaw cfg s ref with
  | .ok (s', _) => s'
  | .error _ => s

/-- `chunk_column_names` from `_create_multilevel_index` in dle.py. -/
def chunk_column_names : List String :=
  ["key", "chunk_index", "start_index", "end_index", "start_date", "end_date", "period"]

/-- `method_column_names` from `_create_multilevel_index` in dle.py. -/
def method_column_names : List String :=
  ["sampling_error", "realized", "value", "upper_confidence_boundary",
   "lower_confidence_boundary", "upper_threshold", "lower_threshold", "alert"]

/-- `_create_multilevel_index` from dle.py: the chunk tuples followed by
the per-metric reconstruction tuples, as a list of two-level column
labels. -/
def create_multilevel_index (metric_names : List String) : List (String × String) :=
  let chunk_tuples := chunk_column_names.map (fun c => ("chunk", c))
  let reconstruction_tuples :=
    metric_names.flatMap (fun m => method_column_names.map (fun c => (m, c)))
  chunk_tuples ++ reconstruction_tuples

/-- The column layout exactly as claim C8 words it: the seven chunk columns
under the chunk group, then, per metric name in input order, the eight
fixed per-metric columns. -/
def specMultilevelIndex (metric_names : List String) : List (String × String) :=
  [("chunk", "key"), ("chunk", "chunk_index"), ("chunk", "start_index"),
   ("chunk", "end_index"), ("chunk", "start_date"), ("chunk", "end_date"),
   ("chunk", "period")] ++
  metric_names.flatMap (fun m =>
    [(m, "sampling_error"), (m, "realized"), (m, "value"),
     (m, "upper_confidence_boundary"), (m, "lower_confidence_boundary"),
     (m, "upper_threshold"), (m, "lower_threshold"), (m, "alert")])

/-- The regression alert rule as claim C1 words it: a side alerts exactly
when its threshold is defined and the estimate crosses it. -/
def claimRegressionAlert (est : ℚ) (ut lt : Option ℚ) : Bool :=
  (match ut with
   | some u => decide (est > u)
   | none => false) ||
  (match lt with
   | some l => decide (est < l)
   | none => false)

/-- The state of a successful three-part call, with a default for errors. -/
def okFst3 {α β γ : Type} (r : Except NmlError (α × β × γ)) (d : α) : α :=
  match r with
  | .ok (a, _, _) => a
  | .error _ => d

/-- The mutated frame of a successful three-part call. -/
def okSnd3 {α β γ : Type} (r : Except NmlError (α × β × γ)) (d : β) : β :=
  match r with
  | .ok (_, b, _) => b
  | .error _ => d

/-- The event log of a successful three-part call. -/
def okThd3 {α β γ : Type} (r : Except NmlError (α × β × γ)) (d : γ) : γ :=
  match r with
  | .ok (_, _, c) => c
  | .error _ => d

/-- The state of a successful two-part call, with a default for errors. -/
def okFst2 {α β : Type} (r : Except NmlError (α × β)) (d : α) : α :=
  match r with
  | .ok (a, _) => a
  | .error _ => d

/-- The mutated frame of a successful two-part call. -/
def okSnd2 {α β : Type} (r : Except NmlError (α × β)) (d : β) : β :=
  match r with
  | .ok (_, b) => b
  | .error _ => d

/-- A concrete chunker placing the whole frame in one chunk. -/
def wSplit : DataFrame → List Chunk :=
  fun d =>
    [{ key := "[0:1]", chunk_index := 0, start_index := 0, end_index := 1,
       start_datetime := none, end_datetime := none, data := d }]

/-- A concrete classification metric with constant outputs. -/
def wMetric : ClfMetric :=
  { column_name := "roc_auc"
    estimate := fun _ => (1 : ℚ) / 2
    sampling_error := fun _ => (1 : ℚ) / 10
    realized_performance := fun _ => (1 : ℚ) / 2
    upper_threshold := (9 : ℚ) / 10
    lower_threshold := (1 : ℚ) / 10 }

/-- A concrete classification estimator configuration. -/
def wCfg : CBPEConfig :=
  { y_pred := "y_pred"
    y_pred_proba := "y_pred_proba"
    y_true := "y_true"
    metrics := [wMetric]
    split := wSplit
    needsCalib := fun yt yp => decide (yt ≠ yp)
    calibrate := fun v => v }

/-- A concrete labeled reference frame whose scores equal its labels. -/
def wRef : DataFrame :=
  ⟨[("y_true", [0, 1]), ("y_pred_proba", [0, 1]), ("y_pred", [0, 1])]⟩

/-- A concrete unlabeled analysis frame. -/
def wAna : DataFrame :=
  ⟨[("y_pred_proba", [1, 1]), ("y_pred", [1, 1])]⟩

/-- The initial classification estimator state. -/
def wS0 : CBPEState := { needs_calibration := false, result := none }

/-- A frame with no data. -/
def dfEmpty : DataFrame := ⟨[]⟩

/-- A nonempty frame missing all required columns. -/
def dfZ : DataFrame := ⟨[("z", [1])]⟩

/-- A concrete regression metric with constant outputs. -/
def wDMetric : DleMetric :=
  { column_name := "mae"
    estimate := fun _ => 2
    sampling_error := fun _ => (1 : ℚ) / 2
    realized_performance := fun _ => 2
    upper_value_limit := none
    lower_value_limit := some 0
    upper_threshold := some 3
    lower_threshold := some 1 }

/-- A concrete regression estimator configuration whose features are all
continuous (no categorical feature columns). -/
def wDcfg : DLEConfig :=
  { feature_column_names := ["f1"]
    y_pred := "y_pred"
    y_true := "y_true"
    metrics := [wDMetric]
    split := wSplit
    categoricalOf := fun _ => []
    imputerFitTransform := fun v => v
    imputerTransform := fun v => v
    encoderFitTransform := fun _ v => v
    encoderTransform := fun _ v => v }

/-- A concrete regression estimator configuration with one categorical
feature column and a non-trivial encoder. -/
def wDcfgCats : DLEConfig :=
  { wDcfg with
    categoricalOf := fun _ => ["f1"]
    encoderFitTransform := fun _ v => v.map (fun _ => 5)
    encoderTransform := fun _ v => v.map (fun _ => 7) }

/-- A concrete regression frame. -/
def wDdf : DataFrame :=
  ⟨[("f1", [1, 2]), ("y_pred", [3, 4]), ("y_true", [3, 5])]⟩

/-- The initial regression estimator state. -/
def wDs0 : DLEState := { result := none }

/-- The first fit call of the concrete classification scenario. -/
def c5fit : Except NmlError (CBPEState × DataFrame × List Event) :=
  cbpeFitRaw wCfg wS0 wRef

def c5s1 : CBPEState := okFst3 c5fit wS0

def c5r1 : DataFrame := okSnd3 c5fit wRef

def c5e1 : List Event := okThd3 c5fit []

/-- The first estimate call of the concrete classification scenario. -/
def c5est : Except NmlError (CBPEState × DataFrame × List Event) :=
  cbpeEstimateRaw wCfg c5s1 wAna

def c5s2 : CBPEState := okFst3 c5est wS0

def c5r2 : DataFrame := okSnd3 c5est wAna

def c5e2 : List Event := okThd3 c5est []

/-- The second estimate call of the concrete classification scenario. -/
def c5est2 : Except NmlError (CBPEState × DataFrame × List Event) :=
  cbpeEstimateRaw wCfg c5s2 wAna

def c5s3 : CBPEState := okFst3 c5est2 wS0

def c5r3 : DataFrame := okSnd3 c5est2 wAna

def c5e3 : List Event := okThd3 c5est2 []

/-- The rows accumulated before the second fit of the refit scenario. -/
def c9prev : List ClfResultRow := c5s2.result.getD []

/-- The second fit call of the concrete classification scenario, issued on
the estimator that already accumulated analysis rows. -/
def c9fit2 : Except NmlError (CBPEState × DataFrame × List Event) :=
  cbpeFitRaw wCfg c5s2 wRef

def c9s3 : CBPEState := okFst3 c9fit2 wS0

def c9r3 : DataFrame := okSnd3 c9fit2 wRef

def c9e3 : List Event := okThd3 c9fit2 []

/-- The first fit call of the concrete regression scenario. -/
def c9dfit1 : Except NmlError (DLEState × DataFrame) :=
  dleFitRaw wDcfg wDs0 wDdf

def c9ds1 : DLEState := okFst2 c9dfit1 wDs0

/-- The rows accumulated before the second regression fit. -/
def c9dprev : List DleResultRow := c9ds1.result.getD []

/-- The second fit call of the concrete regression scenario. -/
def c9dfit2 : Except NmlError (DLEState × DataFrame) :=
  dleFitRaw wDcfg c9ds1 wDdf

def c9ds2 : DLEState := okFst2 c9dfit2 wDs0

def c9dr2 : DataFrame := okSnd2 c9dfit2 wDdf

/-- An estimate call of the classification scenario issued directly on the
initial state (for the mutation claim). -/
def c10est : Except NmlError (CBPEState × DataFrame × List Event) :=
  cbpeEstimateRaw wCfg wS0 wAna

def c10s2 : CBPEState := okFst3 c10est wS0

def c10r2 : DataFrame := okSnd3 c10est wAna

def c10e2 : List Event := okThd3 c10est []

/-- A regression estimate call on a frame with one categorical feature. -/
def c10dest : Except NmlError (DLEState × DataFrame) :=
  dleEstimateRaw wDcfgCats wDs0 wDdf

def c10ds2 : DLEState := okFst2 c10dest wDs0

def c10dr2 : DataFrame := okSnd2 c10dest wDdf

/-- A regression estimate call on a frame with no categorical features. -/
def c10destNoCats : Except NmlError (DLEState × DataFrame) :=
  dleEstimateRaw wDcfg wDs0 wDdf

def c10dsNoCats : DLEState := okFst2 c10destNoCats wDs0

/-! ## Helper lemmas about dataframe operations -/

theorem getColList_setColList_self (n : String) (v : List ℚ)
    (l : List (String × List ℚ)) : getColList n (setColList n v l) = v := by
  induction l with
  | nil => simp [getColList, setColList]
  | cons c t ih =>
    by_cases h : c.1 = n
    · simp [getColList, setColList, h]
    · simp [getColList, setColList, h, ih]

theorem getColList_setColList_ne (n m : String) (hmn : m ≠ n) (v : List ℚ)
    (l : List (String × List ℚ)) :
    getColList m (setColList n v l) = getColList m l := by
  induction l with
  | nil =>
    have : ¬ n = m := fun h => hmn h.symm
    simp [getColList, setColList, this]
  | cons c t ih =>
    by_cases h : c.1 = n
    · have hcm : ¬ c.1 = m := by
        rw [h]; exact fun hh => hmn hh.symm
      have hnm : ¬ n = m := fun hh => hmn hh.symm
      simp [getColList, setColList, h, hcm, hnm]
    · simp only [setColList, if_neg h, getColList]
      rw [ih]

theorem getCol_setCol_self (df : DataFrame) (n : String) (v : List ℚ) :
    (df.setCol n v).getCol n = v :=
  getColList_setColList_self n v df.cols

theorem getCol_setCol_ne (df : DataFrame) (n m : String) (hmn : m ≠ n)
    (v : List ℚ) : (df.setCol n v).getCol m = df.getCol m :=
  getColList_setColList_ne n m hmn v df.cols

/-- The derived uncalibrated-score column name never equals the score
column name itself. -/
theorem uncalName_ne (cfg : CBPEConfig) : uncalName cfg ≠ cfg.y_pred_proba := by
  intro h
  have h' := congrArg String.length h
  rw [uncalName, String.length_append] at h'
  have h13 : ("uncalibrated_").length = 13 := rfl
  rw [h13] at h'
  omega

/-- Deriving the uncalibrated column leaves the score column unchanged. -/
theorem cbpeUncal_getCol_proba (cfg : CBPEConfig) (d : DataFrame) :
    (cbpeUncal cfg d).getCol cfg.y_pred_proba = d.getCol cfg.y_pred_proba :=
  getCol_setCol_ne d (uncalName cfg) cfg.y_pred_proba
    (fun h => uncalName_ne cfg h.symm) (d.getCol cfg.y_pred_proba)

/-- After the pre-chunking mutation, the uncalibrated column holds the
original scores, whether or not calibration was applied. -/
theorem cbpePrepared_getCol_uncal (cfg : CBPEConfig) (flag : Bool) (d : DataFrame) :
    (cbpePrepared cfg flag d).getCol (uncalName cfg) = d.getCol cfg.y_pred_proba := by
  cases flag with
  | false =>
    simp only [cbpePrepared, Bool.false_eq_true, if_false, cbpeUncal]
    exact getCol_setCol_self d (uncalName cfg) (d.getCol cfg.y_pred_proba)
  | true =>
    simp only [cbpePrepared, if_true]
    rw [getCol_setCol_ne _ cfg.y_pred_proba (uncalName cfg) (uncalName_ne cfg)]
    exact getCol_setCol_self d (uncalName cfg) (d.getCol cfg.y_pred_proba)

/-- With calibration needed, the score column is overwritten by the
calibrated original scores. -/
theorem cbpePrepared_getCol_proba_true (cfg : CBPEConfig) (d : DataFrame) :
    (cbpePrepared cfg true d).getCol cfg.y_pred_proba =
      cfg.calibrate (d.getCol cfg.y_pred_proba) := by
  simp only [cbpePrepared, if_true]
  rw [getCol_setCol_self, cbpeUncal_getCol_proba]

/-- Without calibration, the score column is left as given. -/
theorem cbpePrepared_getCol_proba_false (cfg : CBPEConfig) (d : DataFrame) :
    (cbpePrepared cfg false d).getCol cfg.y_pred_proba =
      d.getCol cfg.y_pred_proba := by
  simp only [cbpePrepared, Bool.false_eq_true, if_false]
  exact cbpeUncal_getCol_proba cfg d

/-- A column outside the overwritten set is untouched by the categorical
fold. -/
theorem foldl_setCol_getCol_notmem (f : String → List ℚ → List ℚ) :
    ∀ (cats : List String) (d : DataFrame) (c : String), c ∉ cats →
      (cats.foldl (fun d c => d.setCol c (f c (d.getCol c))) d).getCol c = d.getCol c
  | [], _, _, _ => rfl
  | a :: t, d, c, hc => by
    have hca : c ≠ a := fun h => hc (h ▸ List.mem_cons_self a t)
    have hct : c ∉ t := fun h => hc (List.mem_cons_of_mem a h)
    simp only [List.foldl_cons]
    rw [foldl_setCol_getCol_notmem f t _ c hct,
      getCol_setCol_ne d a c hca]

/-- A column in the overwritten set ends up holding its transformed
original values (set members are distinct). -/
theorem foldl_setCol_getCol_mem (f : String → List ℚ → List ℚ) :
    ∀ (cats : List String) (d : DataFrame) (c : String), cats.Nodup → c ∈ cats →
      (cats.foldl (fun d c => d.setCol c (f c (d.getCol c))) d).getCol c = f c (d.getCol c)
  | [], _, c, _, hc => absurd hc (List.not_mem_nil c)
  | a :: t, d, c, hnd, hc => by
    have hna : a ∉ t := (List.nodup_cons.mp hnd).1
    have hnt : t.Nodup := (List.nodup_cons.mp hnd).2
    simp only [List.foldl_cons]
    rcases List.mem_cons.mp hc with rfl | hct
    · rw [foldl_setCol_getCol_notmem f t _ c hna, getCol_setCol_self]
    · have hca : c ≠ a := fun h => hna (h ▸ hct)
      rw [foldl_setCol_getCol_mem f t _ c hnt hct,
        getCol_setCol_ne d a c hca]

theorem dleTransformWith_getCol_mem (catsOf : DataFrame → List String)
    (imp : List ℚ → List ℚ) (enc : String → List ℚ → List ℚ) (data : DataFrame)
    (hnd : (catsOf data).Nodup) (c : String) (hc : c ∈ catsOf data) :
    (dleTransformWith catsOf imp enc data).getCol c = enc c (imp (data.getCol c)) := by
  unfold dleTransformWith
  split
  · rename_i hemp
    rw [List.isEmpty_iff] at hemp
    rw [hemp] at hc
    exact absurd hc (List.not_mem_nil c)
  · exact foldl_setCol_getCol_mem (fun c v => enc c (imp v)) (catsOf data) data c hnd hc

theorem dleTransformWith_getCol_notmem (catsOf : DataFrame → List String)
    (imp : List ℚ → List ℚ) (enc : String → List ℚ → List ℚ) (data : DataFrame)
    (c : String) (hc : c ∉ catsOf data) :
    (dleTransformWith catsOf imp enc data).getCol c = data.getCol c := by
  unfold dleTransformWith
  split
  · rfl
  · exact foldl_setCol_getCol_notmem (fun c v => enc c (imp v)) (catsOf data) data c hc

/-! ## Inversion lemmas for the estimation calls -/

theorem cbpeEstimateRaw_ok {cfg : CBPEConfig} {s : CBPEState} {data : DataFrame}
    {s' : CBPEState} {d' : DataFrame} {ev : List Event}
    (h : cbpeEstimateRaw cfg s data = .ok (s', d', ev)) :
    s' = { needs_calibration := s.needs_calibration
           result := some (s.result.getD [] ++
             (cfg.split (cbpePrepared cfg s.needs_calibration data)).map (cbpeChunkRow cfg)) } ∧
    d' = cbpePrepared cfg s.needs_calibration data ∧
    ev = (if s.needs_calibration then [Event.calibrateCall] else []) := by
  unfold cbpeEstimateRaw at h
  split at h
  · exact Except.noConfusion h
  · split at h
    · exact Except.noConfusion h
    · injection h with h
      exact ⟨congrArg (fun t => t.1) h.symm, congrArg (fun t => t.2.1) h.symm,
        congrArg (fun t => t.2.2) h.symm⟩

theorem cbpeFitRaw_ok {cfg : CBPEConfig} {s : CBPEState} {ref : DataFrame}
    {s1 : CBPEState} {r1 : DataFrame} {e1 : List Event}
    (h : cbpeFitRaw cfg s ref = .ok (s1, r1, e1)) :
    ∃ s2 ref2 evs,
      cbpeEstimateRaw cfg { needs_calibration := cbpeFlag cfg ref, result := s.result }
          (cbpeRef1 cfg ref) = .ok (s2, ref2, evs) ∧
      s1 = { s2 with result := s2.result.map (List.map setPeriodReference) } ∧
      r1 = ref2 ∧ e1 = Event.needsCalibrationCheck :: evs := by
  unfold cbpeFitRaw at h
  split at h
  · exact Except.noConfusion h
  · split at h
    · exact Except.noConfusion h
    · split at h
      · exact Except.noConfusion h
      · rename_i s2 ref2 evs heq
        injection h with h
        exact ⟨s2, ref2, evs, heq, congrArg (fun t => t.1) h.symm,
          congrArg (fun t => t.2.1) h.symm, congrArg (fun t => t.2.2) h.symm⟩

theorem dleEstimateRaw_ok {cfg : DLEConfig} {s : DLEState} {data : DataFrame}
    {s' : DLEState} {d' : DataFrame}
    (h : dleEstimateRaw cfg s data = .ok (s', d')) :
    s' = { result := some (s.result.getD [] ++
            (cfg.split (dleTransformEstimate cfg data)).map (dleChunkRow cfg)) } ∧
    d' = dleTransformEstimate cfg data := by
  unfold dleEstimateRaw at h
  split at h
  · exact Except.noConfusion h
  · split at h
    · exact Except.noConfusion h
    · injection h with h
      exact ⟨congrArg (fun t => t.1) h.symm, congrArg (fun t => t.2) h.symm⟩

theorem dleFitRaw_ok {cfg : DLEConfig} {s : DLEState} {ref : DataFrame}
    {s1 : DLEState} {r1 : DataFrame}
    (h : dleFitRaw cfg s ref = .ok (s1, r1)) :
    ∃ s2 ref2,
      dleEstimateRaw cfg s (dleTransformFit cfg ref) = .ok (s2, ref2) ∧
      s1 = { result := s2.result.map (List.map dleSetPeriodReference) } ∧
      r1 = ref2 := by
  unfold dleFitRaw at h
  split at h
  · exact Except.noConfusion h
  · split at h
    · exact Except.noConfusion h
    · split at h
      · exact Except.noConfusion h
      · rename_i s2 ref2 heq
        injection h with h
        exact ⟨s2, ref2, heq, congrArg (fun t => t.1) h.symm,
          congrArg (fun t => t.2) h.symm⟩

/-- Every freshly assembled classification row carries the analysis tag. -/
theorem cbpeChunkRow_period (cfg : CBPEConfig) (c : Chunk) :
    (cbpeChunkRow cfg c).period = "analysis" := rfl

theorem setPeriodReference_period (r : ClfResultRow) :
    (setPeriodReference r).period = "reference" := rfl

/-- Every freshly assembled regression row carries the analysis tag. -/
theorem dleChunkRow_period (cfg : DLEConfig) (c : Chunk) :
    (dleChunkRow cfg c).period = "analysis" := rfl

theorem dleSetPeriodReference_period (r : DleResultRow) :
    (dleSetPeriodReference r).period = "reference" := rfl

/-! ## Claim theorems -/

/-- C1 (counterexample).  Claim C1 states that the regression strategy
alerts exactly when a threshold side is defined and the estimate crosses
it.  The source tests the threshold with Python truthiness
(`... if metric.upper_threshold else False`), so a defined upper threshold
equal to 0 never alerts: with estimate 1 and upper threshold 0 the code
produces no alert although the claim's rule alerts. -/
theorem alert_truthiness_counterexample :
    (dleMetricRowOf 1 0 0 none none (some 0) none).alert = false ∧
    claimRegressionAlert 1 (some 0) none = true := by
  exact ⟨rfl, rfl⟩

/-- C1 (amended).  For every chunk and metric: the classification strategy
alerts iff the estimate strictly exceeds the upper threshold or strictly
undercuts the lower threshold; the regression strategy alerts iff a
threshold side is defined AND non-zero and the estimate crosses it (an
absent or zero threshold on a side means that side never alerts). -/
theorem alert_derivation_amended (est se r ut lt : ℚ) (dest dse dr : ℚ)
    (uvl lvl : Option ℚ) (dut dlt : Option ℚ) :
    ((clfMetricRowOf est se r ut lt).alert = true ↔ (est > ut ∨ est < lt)) ∧
    ((dleMetricRowOf dest dse dr uvl lvl dut dlt).alert = true ↔
      ((∃ u, dut = some u ∧ u ≠ 0 ∧ dest > u) ∨
       (∃ l, dlt = some l ∧ l ≠ 0 ∧ dest < l))) := by
  constructor
  · simp [clfMetricRowOf]
  · rcases dut with _ | u <;> rcases dlt with _ | l <;> simp [dleMetricRowOf]

/-- C2.  For every chunk and metric, the classification strategy computes
the upper confidence boundary as the minimum of the fixed upper bound and
estimate plus three sampling errors, the lower boundary as the maximum of
the fixed lower bound and estimate minus three sampling errors, with the
bounds fixed to 1 and 0 and the band factor fixed to 3. -/
theorem confidence_band_classification (est se r ut lt : ℚ) :
    (clfMetricRowOf est se r ut lt).upper_confidence_boundary =
      min confidence_upper_bound (est + SAMPLING_ERROR_RANGE * se) ∧
    (clfMetricRowOf est se r ut lt).lower_confidence_boundary =
      max confidence_lower_bound (est - SAMPLING_ERROR_RANGE * se) ∧
    confidence_upper_bound = 1 ∧ confidence_lower_bound = 0 ∧
    SAMPLING_ERROR_RANGE = 3 :=
  ⟨rfl, rfl, rfl, rfl, rfl⟩

/-- C3.  For every chunk and metric, the regression strategy computes
estimate plus-or-minus three sampling errors and clips each side to its
value limit exactly when that limit is defined; an undefined limit leaves
that boundary unclipped. -/
theorem confidence_band_regression (est se r : ℚ) (uvl lvl ut lt : Option ℚ) :
    (uvl = none →
      (dleMetricRowOf est se r uvl lvl ut lt).upper_confidence_boundary = est + 3 * se) ∧
    (∀ u, uvl = some u →
      (dleMetricRowOf est se r uvl lvl ut lt).upper_confidence_boundary = min u (est + 3 * se)) ∧
    (lvl = none →
      (dleMetricRowOf est se r uvl lvl ut lt).lower_confidence_boundary = est - 3 * se) ∧
    (∀ l, lvl = some l →
      (dleMetricRowOf est se r uvl lvl ut lt).lower_confidence_boundary = max l (est - 3 * se)) := by
  refine ⟨fun h => ?_, fun u h => ?_, fun h => ?_, fun l h => ?_⟩ <;> subst h <;> rfl

/-- C3 (witness). -/
theorem confidence_band_regression_witness :
    (dleMetricRowOf 1 ((1 : ℚ) / 2) 0 (some 2) none none none).upper_confidence_boundary =
      min 2 (1 + 3 * ((1 : ℚ) / 2)) ∧
    (dleMetricRowOf 1 ((1 : ℚ) / 2) 0 (some 2) none none none).lower_confidence_boundary =
      1 - 3 * ((1 : ℚ) / 2) :=
  ⟨(confidence_band_regression 1 ((1 : ℚ) / 2) 0 (some 2) none none none).2.1 2 rfl,
   (confidence_band_regression 1 ((1 : ℚ) / 2) 0 (some 2) none none none).2.2.1 rfl⟩

/-- C4 (counterexample).  With a non-negative sampling error (here 0) the
claimed ordering can still fail for the regression strategy: when the
estimate (5) exceeds a defined upper value limit (4), the clipped upper
confidence boundary (4) drops below the estimated value. -/
theorem confidence_ordering_counterexample :
    (0 : ℚ) ≤ 0 ∧
    ¬ ((dleMetricRowOf 5 0 0 (some 4) none none none).value ≤
        (dleMetricRowOf 5 0 0 (some 4) none none none).upper_confidence_boundary) := by
  constructor
  · exact le_refl 0
  · intro hcontra
    have h : (5 : ℚ) ≤ min 4 (5 + 3 * 0) := hcontra
    have h4 : min (4 : ℚ) (5 + 3 * 0) ≤ 4 := min_le_left _ _
    linarith

/-- C4 (amended).  For every metric and chunk row: assuming a non-negative
sampling error and, for classification, an estimate in the unit interval,
the classification row satisfies lower boundary at most estimate at most
upper boundary with both boundaries inside the unit interval; the
regression row satisfies the same ordering under the additional assumption
that the estimate respects whichever value limits the metric defines
(estimate at most a defined upper limit, at least a defined lower
limit). -/
theorem confidence_ordering_amended (est se r ut lt : ℚ) (dest dse dr : ℚ)
    (uvl lvl dut dlt : Option ℚ)
    (hse : 0 ≤ se) (h0 : 0 ≤ est) (h1 : est ≤ 1) (hdse : 0 ≤ dse)
    (hu : ∀ u, uvl = some u → dest ≤ u) (hl : ∀ l, lvl = some l → l ≤ dest) :
    ((clfMetricRowOf est se r ut lt).lower_confidence_boundary ≤
        (clfMetricRowOf est se r ut lt).value ∧
      (clfMetricRowOf est se r ut lt).value ≤
        (clfMetricRowOf est se r ut lt).upper_confidence_boundary ∧
      0 ≤ (clfMetricRowOf est se r ut lt).lower_confidence_boundary ∧
      (clfMetricRowOf est se r ut lt).lower_confidence_boundary ≤ 1 ∧
      0 ≤ (clfMetricRowOf est se r ut lt).upper_confidence_boundary ∧
      (clfMetricRowOf est se r ut lt).upper_confidence_boundary ≤ 1) ∧
    ((dleMetricRowOf dest dse dr uvl lvl dut dlt).lower_confidence_boundary ≤
        (dleMetricRowOf dest dse dr uvl lvl dut dlt).value ∧
      (dleMetricRowOf dest dse dr uvl lvl dut dlt).value ≤
        (dleMetricRowOf dest dse dr uvl lvl dut dlt).upper_confidence_boundary) := by
  constructor
  · simp only [clfMetricRowOf, confidence_upper_bound, confidence_lower_bound,
      SAMPLING_ERROR_RANGE]
    refine ⟨max_le h0 (by linarith), le_min h1 (by linarith), le_max_left 0 _,
      max_le (by norm_num) (by linarith), le_min (by norm_num) (by linarith),
      min_le_left 1 _⟩
  · simp only [dleMetricRowOf]
    constructor
    · rcases lvl with _ | l
      · simp only
        linarith
      · simp only
        exact max_le (hl l rfl) (by linarith)
    · rcases uvl with _ | u
      · simp only
        linarith
      · simp only
        exact le_min (hu u rfl) (by linarith)

/-- C4 (witness). -/
theorem confidence_ordering_amended_witness :
    ((0 : ℚ) ≤ 1 / 10 ∧ (0 : ℚ) ≤ 1 / 2 ∧ (1 : ℚ) / 2 ≤ 1 ∧ (0 : ℚ) ≤ 1) ∧
    (((clfMetricRowOf (1 / 2) (1 / 10) 0 (9 / 10) (1 / 10)).lower_confidence_boundary ≤
        (clfMetricRowOf (1 / 2) (1 / 10) 0 (9 / 10) (1 / 10)).value ∧
      (clfMetricRowOf (1 / 2) (1 / 10) 0 (9 / 10) (1 / 10)).value ≤
        (clfMetricRowOf (1 / 2) (1 / 10) 0 (9 / 10) (1 / 10)).upper_confidence_boundary ∧
      0 ≤ (clfMetricRowOf (1 / 2) (1 / 10) 0 (9 / 10) (1 / 10)).lower_confidence_boundary ∧
      (clfMetricRowOf (1 / 2) (1 / 10) 0 (9 / 10) (1 / 10)).lower_confidence_boundary ≤ 1 ∧
      0 ≤ (clfMetricRowOf (1 / 2) (1 / 10) 0 (9 / 10) (1 / 10)).upper_confidence_boundary ∧
      (clfMetricRowOf (1 / 2) (1 / 10) 0 (9 / 10) (1 / 10)).upper_confidence_boundary ≤ 1) ∧
    ((dleMetricRowOf 3 1 0 (some 10) (some 0) none none).lower_confidence_boundary ≤
        (dleMetricRowOf 3 1 0 (some 10) (some 0) none none).value ∧
      (dleMetricRowOf 3 1 0 (some 10) (some 0) none none).value ≤
        (dleMetricRowOf 3 1 0 (some 10) (some 0) none none).upper_confidence_boundary)) :=
  ⟨by norm_num,
   confidence_ordering_amended (1 / 2) (1 / 10) 0 (9 / 10) (1 / 10) 3 1 0
     (some 10) (some 0) none none (by norm_num) (by norm_num) (by norm_num)
     (by norm_num)
     (by intro u h; injection h with h; subst h; norm_num)
     (by intro l h; injection h with h; subst h; norm_num)⟩

/-- C8.  The column layout builder produces exactly the seven chunk
columns under the chunk group followed by, for each metric name in input
order, the eight per-metric columns in their fixed order. -/
theorem multilevel_index_layout (metric_names : List String) :
    create_multilevel_index metric_names = specMultilevelIndex metric_names := rfl

/-- C5.  Starting from a fresh estimator, fit followed by one estimate
leaves the Result with exactly the reference chunk rows followed by the
analysis chunk rows (so reference count plus analysis count rows in
total), the fit-seeded rows tagged reference and the estimate rows tagged
analysis; a further estimate call appends its rows additively, with no
deduplication by chunk key. -/
theorem accumulation (cfg : CBPEConfig) (s0 s1 s2 s3 : CBPEState)
    (ref adf adf2 r1 r2 r3 : DataFrame) (e1 e2 e3 : List Event)
    (h0 : s0.result = none)
    (hf : cbpeFitRaw cfg s0 ref = .ok (s1, r1, e1))
    (he : cbpeEstimateRaw cfg s1 adf = .ok (s2, r2, e2))
    (he2 : cbpeEstimateRaw cfg s2 adf2 = .ok (s3, r3, e3)) :
    ∃ rr ar ar2,
      s1.result = some rr ∧ s2.result = some (rr ++ ar) ∧
      s3.result = some (rr ++ ar ++ ar2) ∧
      rr.length = (cfg.split r1).length ∧ ar.length = (cfg.split r2).length ∧
      ar2.length = (cfg.split r3).length ∧
      (∀ r ∈ rr, r.period = "reference") ∧ (∀ r ∈ ar, r.period = "analysis") ∧
      (∀ r ∈ ar2, r.period = "analysis") := by
  obtain ⟨s2', ref2, evs, hin, hs1, hr1, -⟩ := cbpeFitRaw_ok hf
  obtain ⟨hs2', hd2', -⟩ := cbpeEstimateRaw_ok hin
  obtain ⟨hs2, hd2, -⟩ := cbpeEstimateRaw_ok he
  obtain ⟨hs3, hd3, -⟩ := cbpeEstimateRaw_ok he2
  have hfp : cbpePrepared cfg (cbpeFlag cfg ref) (cbpeRef1 cfg ref) = r1 := by
    rw [hr1, hd2']
  have h1 : s1.result =
      some (((cfg.split r1).map (cbpeChunkRow cfg)).map setPeriodReference) := by
    rw [hs1, hs2']
    simp [h0, hfp]
  have h2 : s2.result =
      some (((cfg.split r1).map (cbpeChunkRow cfg)).map setPeriodReference ++
        (cfg.split r2).map (cbpeChunkRow cfg)) := by
    rw [hs2]
    simp [h1, ← hd2]
  have h3 : s3.result =
      some ((((cfg.split r1).map (cbpeChunkRow cfg)).map setPeriodReference ++
        (cfg.split r2).map (cbpeChunkRow cfg)) ++
        (cfg.split r3).map (cbpeChunkRow cfg)) := by
    rw [hs3]
    simp [h2, ← hd3]
  refine ⟨((cfg.split r1).map (cbpeChunkRow cfg)).map setPeriodReference,
    (cfg.split r2).map (cbpeChunkRow cfg), (cfg.split r3).map (cbpeChunkRow cfg),
    h1, h2, h3, by simp, by simp, by simp, ?_, ?_, ?_⟩
  · intro r hr
    obtain ⟨x, -, rfl⟩ := List.mem_map.mp hr
    rfl
  · intro r hr
    obtain ⟨c, -, rfl⟩ := List.mem_map.mp hr
    rfl
  · intro r hr
    obtain ⟨c, -, rfl⟩ := List.mem_map.mp hr
    rfl

/-- C5 (witness). -/
theorem accumulation_witness :
    ∃ rr ar ar2,
      c5s1.result = some rr ∧ c5s2.result = some (rr ++ ar) ∧
      c5s3.result = some (rr ++ ar ++ ar2) ∧
      rr.length = (wCfg.split c5r1).length ∧ ar.length = (wCfg.split c5r2).length ∧
      ar2.length = (wCfg.split c5r3).length ∧
      (∀ r ∈ rr, r.period = "reference") ∧ (∀ r ∈ ar, r.period = "analysis") ∧
      (∀ r ∈ ar2, r.period = "analysis") :=
  accumulation wCfg wS0 c5s1 c5s2 c5s3 wRef wAna wAna c5r1 c5r2 c5r3 c5e1 c5e2 c5e3
    rfl rfl rfl rfl

/-- C6.  Both strategies validate eagerly on fit and estimate: an empty
dataset is rejected with the invalid-input error, a dataset missing
required columns is rejected with an error enumerating exactly the missing
column names, and in either rejection case the estimator's accumulated
Result state is left unchanged. -/
theorem eager_validation (cfg : CBPEConfig) (dcfg : DLEConfig)
    (s : CBPEState) (ds : DLEState) (df : DataFrame) :
    (df.isEmpty = true →
      cbpeFitRaw cfg s df = .error (.invalidArguments rowsErrorMsg) ∧
      cbpeEstimateRaw cfg s df = .error (.invalidArguments rowsErrorMsg) ∧
      dleFitRaw dcfg ds df = .error (.invalidArguments rowsErrorMsg) ∧
      dleEstimateRaw dcfg ds df = .error (.invalidArguments rowsErrorMsg) ∧
      cbpeFitState cfg s df = s ∧ cbpeEstimateState cfg s df = s ∧
      dleFitState dcfg ds df = ds ∧ dleEstimateState dcfg ds df = ds) ∧
    (df.isEmpty = false →
      (missingOf [cfg.y_true, cfg.y_pred_proba, cfg.y_pred] df.columnNames ≠ [] →
        cbpeFitRaw cfg s df = .error (.missingColumns
          (missingOf [cfg.y_true, cfg.y_pred_proba, cfg.y_pred] df.columnNames)) ∧
        cbpeFitState cfg s df = s) ∧
      (missingOf [cfg.y_pred_proba, cfg.y_pred] df.columnNames ≠ [] →
        cbpeEstimateRaw cfg s df = .error (.missingColumns
          (missingOf [cfg.y_pred_proba, cfg.y_pred] df.columnNames)) ∧
        cbpeEstimateState cfg s df = s) ∧
      (missingOf [dcfg.y_true, dcfg.y_pred] df.columnNames ≠ [] →
        dleFitRaw dcfg ds df = .error (.missingColumns
          (missingOf [dcfg.y_true, dcfg.y_pred] df.columnNames)) ∧
        dleFitState dcfg ds df = ds) ∧
      (missingOf [dcfg.y_pred] df.columnNames ≠ [] →
        dleEstimateRaw dcfg ds df = .error (.missingColumns
          (missingOf [dcfg.y_pred] df.columnNames)) ∧
        dleEstimateState dcfg ds df = ds)) := by
  refine ⟨fun h => ?_, fun h => ?_⟩
  · have h1 : cbpeFitRaw cfg s df = .error (.invalidArguments rowsErrorMsg) := by
      simp [cbpeFitRaw, h]
    have h2 : cbpeEstimateRaw cfg s df = .error (.invalidArguments rowsErrorMsg) := by
      simp [cbpeEstimateRaw, h]
    have h3 : dleFitRaw dcfg ds df = .error (.invalidArguments rowsErrorMsg) := by
      simp [dleFitRaw, h]
    have h4 : dleEstimateRaw dcfg ds df = .error (.invalidArguments rowsErrorMsg) := by
      simp [dleEstimateRaw, h]
    exact ⟨h1, h2, h3, h4, by simp [cbpeFitState, h1], by simp [cbpeEstimateState, h2],
      by simp [dleFitState, h3], by simp [dleEstimateState, h4]⟩
  · refine ⟨fun hm => ?_, fun hm => ?_, fun hm => ?_, fun hm => ?_⟩
    · have h1 : cbpeFitRaw cfg s df = .error (.missingColumns
          (missingOf [cfg.y_true, cfg.y_pred_proba, cfg.y_pred] df.columnNames)) := by
        simp [cbpeFitRaw, h, listMissing, hm]
      exact ⟨h1, by simp [cbpeFitState, h1]⟩
    · have h1 : cbpeEstimateRaw cfg s df = .error (.missingColumns
          (missingOf [cfg.y_pred_proba, cfg.y_pred] df.columnNames)) := by
        simp [cbpeEstimateRaw, h, listMissing, hm]
      exact ⟨h1, by simp [cbpeEstimateState, h1]⟩
    · have h1 : dleFitRaw dcfg ds df = .error (.missingColumns
          (missingOf [dcfg.y_true, dcfg.y_pred] df.columnNames)) := by
        simp [dleFitRaw, h, listMissing, hm]
      exact ⟨h1, by simp [dleFitState, h1]⟩
    · have h1 : dleEstimateRaw dcfg ds df = .error (.missingColumns
          (missingOf [dcfg.y_pred] df.columnNames)) := by
        simp [dleEstimateRaw, h, listMissing, hm]
      exact ⟨h1, by simp [dleEstimateState, h1]⟩

/-- C6 (witness). -/
theorem eager_validation_witness :
    (cbpeFitRaw wCfg wS0 dfEmpty = .error (.invalidArguments rowsErrorMsg) ∧
     cbpeEstimateRaw wCfg wS0 dfEmpty = .error (.invalidArguments rowsErrorMsg) ∧
     dleFitRaw wDcfg wDs0 dfEmpty = .error (.invalidArguments rowsErrorMsg) ∧
     dleEstimateRaw wDcfg wDs0 dfEmpty = .error (.invalidArguments rowsErrorMsg) ∧
     cbpeFitState wCfg wS0 dfEmpty = wS0 ∧ cbpeEstimateState wCfg wS0 dfEmpty = wS0 ∧
     dleFitState wDcfg wDs0 dfEmpty = wDs0 ∧ dleEstimateState wDcfg wDs0 dfEmpty = wDs0) ∧
    (cbpeFitRaw wCfg wS0 dfZ = .error (.missingColumns
        (missingOf [wCfg.y_true, wCfg.y_pred_proba, wCfg.y_pred] dfZ.columnNames)) ∧
      cbpeFitState wCfg wS0 dfZ = wS0) ∧
    (cbpeEstimateRaw wCfg wS0 dfZ = .error (.missingColumns
        (missingOf [wCfg.y_pred_proba, wCfg.y_pred] dfZ.columnNames)) ∧
      cbpeEstimateState wCfg wS0 dfZ = wS0) ∧
    (dleFitRaw wDcfg wDs0 dfZ = .error (.missingColumns
        (missingOf [wDcfg.y_true, wDcfg.y_pred] dfZ.columnNames)) ∧
      dleFitState wDcfg wDs0 dfZ = wDs0) ∧
    (dleEstimateRaw wDcfg wDs0 dfZ = .error (.missingColumns
        (missingOf [wDcfg.y_pred] dfZ.columnNames)) ∧
      dleEstimateState wDcfg wDs0 dfZ = wDs0) :=
  ⟨(eager_validation wCfg wDcfg wS0 wDs0 dfEmpty).1 rfl,
   ((eager_validation wCfg wDcfg wS0 wDs0 dfZ).2 rfl).1 (by decide),
   ((eager_validation wCfg wDcfg wS0 wDs0 dfZ).2 rfl).2.1 (by decide),
   ((eager_validation wCfg wDcfg wS0 wDs0 dfZ).2 rfl).2.2.1 (by decide),
   ((eager_validation wCfg wDcfg wS0 wDs0 dfZ).2 rfl).2.2.2 (by decide)⟩

/-- C7.  The calibration-need flag is computed exactly once per fit from
the reference labels and scores; every subsequent estimate applies the
external calibrate function exactly once when the flag is true and never
when it is false; and when the reference scores equal the reference labels
(with the external check satisfying its probability-likeness contract) the
flag is false and calibrate is never invoked. -/
theorem calibration_gating (cfg : CBPEConfig) (s0 s1 s2 : CBPEState)
    (ref adf r1 r2 : DataFrame) (e1 e2 : List Event)
    (hf : cbpeFitRaw cfg s0 ref = .ok (s1, r1, e1))
    (he : cbpeEstimateRaw cfg s1 adf = .ok (s2, r2, e2)) :
    s1.needs_calibration = cbpeFlag cfg ref ∧
    e1.count Event.needsCalibrationCheck = 1 ∧
    e1.count Event.calibrateCall = (if cbpeFlag cfg ref then 1 else 0) ∧
    e2.count Event.needsCalibrationCheck = 0 ∧
    e2.count Event.calibrateCall = (if s1.needs_calibration then 1 else 0) ∧
    ((∀ v, cfg.needsCalib v v = false) →
      ref.getCol cfg.y_pred_proba = ref.getCol cfg.y_true →
      s1.needs_calibration = false ∧ e1.count Event.calibrateCall = 0 ∧
        e2.count Event.calibrateCall = 0) := by
  obtain ⟨s2', ref2, evs, hin, hs1, -, he1eq⟩ := cbpeFitRaw_ok hf
  obtain ⟨hs2', -, hevm⟩ := cbpeEstimateRaw_ok hin
  obtain ⟨-, -, hev2⟩ := cbpeEstimateRaw_ok he
  have hev : evs = (if cbpeFlag cfg ref then [Event.calibrateCall] else []) := hevm
  have hflag : s1.needs_calibration = cbpeFlag cfg ref := by rw [hs1, hs2']
  subst he1eq
  refine ⟨hflag, ?_, ?_, ?_, ?_, ?_⟩
  · rw [hev]
    cases hbf : cbpeFlag cfg ref <;> rfl
  · rw [hev]
    cases hbf : cbpeFlag cfg ref <;> rfl
  · rw [hev2, hflag]
    cases hbf : cbpeFlag cfg ref <;> rfl
  · rw [hev2, hflag]
    cases hbf : cbpeFlag cfg ref <;> rfl
  · intro hspec hlab
    have hflagFalse : cbpeFlag cfg ref = false := by
      unfold cbpeFlag cbpeRef1 cbpeUncal
      rw [getCol_setCol_ne ref _ _ (fun hh => uncalName_ne cfg hh.symm)]
      by_cases hy : cfg.y_true = uncalName cfg
      · rw [hy, getCol_setCol_self]
        exact hspec _
      · rw [getCol_setCol_ne ref _ _ hy, ← hlab]
        exact hspec _
    refine ⟨hflag.trans hflagFalse, ?_, ?_⟩
    · rw [hev, hflagFalse]
      rfl
    · rw [hev2, hflag, hflagFalse]
      rfl

/-- C7 (witness). -/
theorem calibration_gating_witness :
    c5s1.needs_calibration = cbpeFlag wCfg wRef ∧
    c5e1.count Event.needsCalibrationCheck = 1 ∧
    c5e1.count Event.calibrateCall = (if cbpeFlag wCfg wRef then 1 else 0) ∧
    c5e2.count Event.needsCalibrationCheck = 0 ∧
    c5e2.count Event.calibrateCall = (if c5s1.needs_calibration then 1 else 0) ∧
    ((∀ v, wCfg.needsCalib v v = false) →
      wRef.getCol wCfg.y_pred_proba = wRef.getCol wCfg.y_true →
      c5s1.needs_calibration = false ∧ c5e1.count Event.calibrateCall = 0 ∧
        c5e2.count Event.calibrateCall = 0) :=
  calibration_gating wCfg wS0 c5s1 c5s2 wRef wAna c5r1 c5r2 c5e1 c5e2 rfl rfl

/-- C9 (counterexample).  After fit, estimate, and a second fit (each
producing one chunk), the Result holds three rows although the new
reference seeding produced a single chunk: the second fit appends to the
accumulated Result instead of replacing it, so the claim that after a
second fit the Result's rows are those of the new reference seeding only
is false. -/
theorem refit_counterexample :
    cbpeFitRaw wCfg c5s2 wRef = .ok (c9s3, c9r3, c9e3) ∧
    (c9s3.result.getD []).length = 3 ∧ (wCfg.split c9r3).length = 1 :=
  ⟨rfl, rfl, rfl⟩

/-- C9 (amended).  Calling fit on an estimator that already holds Result
rows does not drop them: the new reference seeding's rows are appended
after the prior rows, and every row of the Result — the preserved prior
rows included — has its period rewritten to reference.  This holds for
both strategies. -/
theorem refit_appends_and_retags (cfg : CBPEConfig) (dcfg : DLEConfig)
    (s : CBPEState) (ds : DLEState)
    (prev : List ClfResultRow) (dprev : List DleResultRow)
    (ref dref r1 dr1 : DataFrame) (s1 : CBPEState) (ds1 : DLEState) (e1 : List Event)
    (hprev : s.result = some prev) (hdprev : ds.result = some dprev)
    (hf : cbpeFitRaw cfg s ref = .ok (s1, r1, e1))
    (hdf : dleFitRaw dcfg ds dref = .ok (ds1, dr1)) :
    (∃ nr, s1.result = some (prev.map setPeriodReference ++ nr) ∧
      nr.length = (cfg.split r1).length ∧
      (∀ r ∈ prev.map setPeriodReference ++ nr, r.period = "reference")) ∧
    (∃ dnr, ds1.result = some (dprev.map dleSetPeriodReference ++ dnr) ∧
      dnr.length = (dcfg.split dr1).length ∧
      (∀ r ∈ dprev.map dleSetPeriodReference ++ dnr, r.period = "reference")) := by
  obtain ⟨s2', ref2, evs, hin, hs1, hr1, -⟩ := cbpeFitRaw_ok hf
  obtain ⟨hs2', hd2', -⟩ := cbpeEstimateRaw_ok hin
  obtain ⟨ds2', dref2, hdin, hds1, hdr1⟩ := dleFitRaw_ok hdf
  obtain ⟨hds2', hdd2'⟩ := dleEstimateRaw_ok hdin
  constructor
  · refine ⟨((cfg.split r1).map (cbpeChunkRow cfg)).map setPeriodReference, ?_, ?_, ?_⟩
    · rw [hs1, hs2']
      simp [hprev, hr1, hd2']
    · simp
    · intro r hr
      rcases List.mem_append.mp hr with hmem | hmem
      · obtain ⟨x, -, rfl⟩ := List.mem_map.mp hmem
        rfl
      · obtain ⟨x, -, rfl⟩ := List.mem_map.mp hmem
        rfl
  · refine ⟨((dcfg.split dr1).map (dleChunkRow dcfg)).map dleSetPeriodReference, ?_, ?_, ?_⟩
    · rw [hds1, hds2']
      simp [hdprev, hdr1, hdd2']
    · simp
    · intro r hr
      rcases List.mem_append.mp hr with hmem | hmem
      · obtain ⟨x, -, rfl⟩ := List.mem_map.mp hmem
        rfl
      · obtain ⟨x, -, rfl⟩ := List.mem_map.mp hmem
        rfl

/-- C9 (witness). -/
theorem refit_appends_and_retags_witness :
    (∃ nr, c9s3.result = some (c9prev.map setPeriodReference ++ nr) ∧
      nr.length = (wCfg.split c9r3).length ∧
      (∀ r ∈ c9prev.map setPeriodReference ++ nr, r.period = "reference")) ∧
    (∃ dnr, c9ds2.result = some (c9dprev.map dleSetPeriodReference ++ dnr) ∧
      dnr.length = (wDcfg.split c9dr2).length ∧
      (∀ r ∈ c9dprev.map dleSetPeriodReference ++ dnr, r.period = "reference")) :=
  refit_appends_and_retags wCfg wDcfg c5s2 c9ds1 c9prev c9dprev wRef wDdf c9r3 c9dr2
    c9s3 c9ds2 c9e3 rfl rfl rfl rfl

/-- C10 (counterexample).  A non-rejected regression estimate call on a
dataset with no categorical feature columns returns the caller's dataframe
completely unchanged, so the claim that every non-rejected call leaves the
caller's dataset changed is false. -/
theorem input_mutation_counterexample :
    dleEstimateRaw wDcfg wDs0 wDdf = .ok (c10dsNoCats, wDdf) ∧
    wDcfg.categoricalOf wDdf = [] :=
  ⟨rfl, rfl⟩

/-- C10 (amended).  Non-rejected calls mutate the caller's input dataframe
in place: the classification strategy stores the original scores under the
derived uncalibrated column (on fit and on estimate) and, exactly when
calibration is needed, overwrites the score column with calibrated values;
the regression strategy overwrites each categorical feature column with
its imputed, integer-encoded values and leaves every other column — hence,
when no categorical feature column exists, the whole dataframe —
unchanged. -/
theorem input_mutation_amended (cfg : CBPEConfig) (dcfg : DLEConfig)
    (s s1 s2 : CBPEState) (ds ds2 : DLEState)
    (ref adf ddf r1 r2 dr2 : DataFrame) (e1 e2 : List Event)
    (hf : cbpeFitRaw cfg s ref = .ok (s1, r1, e1))
    (he : cbpeEstimateRaw cfg s adf = .ok (s2, r2, e2))
    (hd : dleEstimateRaw dcfg ds ddf = .ok (ds2, dr2))
    (hnd : (dcfg.categoricalOf ddf).Nodup) :
    r2.getCol (uncalName cfg) = adf.getCol cfg.y_pred_proba ∧
    (s.needs_calibration = true →
      r2.getCol cfg.y_pred_proba = cfg.calibrate (adf.getCol cfg.y_pred_proba)) ∧
    (s.needs_calibration = false →
      r2.getCol cfg.y_pred_proba = adf.getCol cfg.y_pred_proba) ∧
    r1.getCol (uncalName cfg) = ref.getCol cfg.y_pred_proba ∧
    (∀ c ∈ dcfg.categoricalOf ddf,
      dr2.getCol c = dcfg.encoderTransform c (dcfg.imputerTransform (ddf.getCol c))) ∧
    (∀ c, c ∉ dcfg.categoricalOf ddf → dr2.getCol c = ddf.getCol c) := by
  obtain ⟨-, hd2, -⟩ := cbpeEstimateRaw_ok he
  obtain ⟨s2', ref2, evs, hin, -, hr1, -⟩ := cbpeFitRaw_ok hf
  obtain ⟨-, hd2', -⟩ := cbpeEstimateRaw_ok hin
  obtain ⟨-, hdd⟩ := dleEstimateRaw_ok hd
  subst hd2
  subst hdd
  have hr1p : r1 = cbpePrepared cfg (cbpeFlag cfg ref) (cbpeRef1 cfg ref) := by
    rw [hr1, hd2']
  refine ⟨cbpePrepared_getCol_uncal cfg s.needs_calibration adf, ?_, ?_, ?_, ?_, ?_⟩
  · intro hcal
    rw [hcal]
    exact cbpePrepared_getCol_proba_true cfg adf
  · intro hcal
    rw [hcal]
    exact cbpePrepared_getCol_proba_false cfg adf
  · rw [hr1p, cbpePrepared_getCol_uncal]
    exact cbpeUncal_getCol_proba cfg ref
  · intro c hc
    exact dleTransformWith_getCol_mem dcfg.categoricalOf _ _ ddf hnd c hc
  · intro c hc
    exact dleTransformWith_getCol_notmem dcfg.categoricalOf _ _ ddf c hc

/-- C10 (witness). -/
theorem input_mutation_amended_witness :
    c10r2.getCol (uncalName wCfg) = wAna.getCol wCfg.y_pred_proba ∧
    (wS0.needs_calibration = true →
      c10r2.getCol wCfg.y_pred_proba = wCfg.calibrate (wAna.getCol wCfg.y_pred_proba)) ∧
    (wS0.needs_calibration = false →
      c10r2.getCol wCfg.y_pred_proba = wAna.getCol wCfg.y_pred_proba) ∧
    c5r1.getCol (uncalName wCfg) = wRef.getCol wCfg.y_pred_proba ∧
    (∀ c ∈ wDcfgCats.categoricalOf wDdf,
      c10dr2.getCol c = wDcfgCats.encoderTransform c (wDcfgCats.imputerTransform (wDdf.getCol c))) ∧
    (∀ c, c ∉ wDcfgCats.categoricalOf wDdf → c10dr2.getCol c = wDdf.getCol c) :=
  input_mutation_amended wCfg wDcfgCats wS0 c5s1 c10s2 wDs0 c10ds2 wRef wAna wDdf
    c5r1 c10r2 c10dr2 c5e1 c10e2 rfl rfl rfl (by decide)

end NannyML
